import Mathlib

/-!
Shallow embedding of the egypt-gold-prices scraper (src/scraper.py).
Texts are modelled as lists of characters, prices as exact rationals,
fallible external calls (base64 decode, image decode, OCR) as
Except-valued inputs.  All definitions are translated from the source.
-/

/-- Per-character OCR-confusion substitution followed by comma-to-dot
normalization, mirroring the chain of str.replace calls in cleanup_text
(scraper.py lines 31-38).  The chained replaces commute with a single
per-character map because no substitution output is a later input. -/
def subst (c : Char) : Char :=
  if c = 'S' ∨ c = 's' then '5'
  else if c = 'O' ∨ c = 'o' then '0'
  else if c = 'I' ∨ c = 'l' then '1'
  else if c = 'B' then '8'
  else if c = ',' then '.'
  else c

/-- Characters kept by re.sub removing every non-digit non-dot character
(scraper.py line 41). -/
def keepChar (c : Char) : Bool :=
  c.isDigit || c = '.'

/-- Number of dot characters, mirroring str.count of the dot. -/
def dotCount : List Char → ℕ
  | [] => 0
  | c :: cs => (if c = '.' then 1 else 0) + dotCount cs

/-- Split on dots, mirroring str.split; always returns at least one
(possibly empty) group, exactly as Python's split does. -/
def splitDots : List Char → List (List Char)
  | [] => [[]]
  | c :: cs =>
    if c = '.' then [] :: splitDots cs
    else
      match splitDots cs with
      | [] => [[c]]
      | g :: gs => (c :: g) :: gs

/-- Last group of a split, mirroring Python's parts[-1] (split output is
never empty, so the default is never used). -/
def lastPart (parts : List (List Char)) : List Char :=
  parts.getLastD []

/-- Value of a digit string read in base 10, as Python's float does on
the integer part of a numeral. -/
def digitsToNat : List Char → ℕ :=
  List.foldl (fun n c => 10 * n + (c.toNat - 48)) 0

/-- Python float() restricted to the strings cleanup_text can feed it:
digits with at most one dot.  Empty string or a lone dot fail (None);
anything else with more than one dot would also fail. -/
def parseFloat (l : List Char) : Option ℚ :=
  match splitDots l with
  | [ip] => if ip.isEmpty then none else some ((digitsToNat ip : ℚ))
  | [ip, fp] =>
    if ip.isEmpty && fp.isEmpty then none
    else some ((digitsToNat ip : ℚ) + (digitsToNat fp : ℚ) / (10 : ℚ) ^ fp.length)
  | _ => none

/-- Thousands-vs-decimal disambiguation on the cleaned text
(scraper.py lines 45-50): if any dot is present and the trailing group
has exactly three digits, every dot is removed; otherwise, if more than
one dot is present, all groups but the last are concatenated and the
last dot is kept as the decimal point. -/
def applyDotRule (cleaned : List Char) : List Char :=
  if dotCount cleaned > 0 then
    if (lastPart (splitDots cleaned)).length = 3 then
      cleaned.filter (fun c => decide (c ≠ '.'))
    else if dotCount cleaned > 1 then
      ((splitDots cleaned).dropLast).flatten ++ ('.' :: lastPart (splitDots cleaned))
    else cleaned
  else cleaned

/-- cleanup_text (scraper.py lines 26-55): empty input yields None;
otherwise substitute confusions, drop non-numeric characters, apply the
separator rule, and parse as float, with parse failure yielding None. -/
def cleanup_text (text : List Char) : Option ℚ :=
  if text.isEmpty then none
  else parseFloat (applyDotRule ((text.map subst).filter keepChar))

/-- Occurrence count of a value in a candidate list, mirroring
collections.Counter. -/
def countQ (v : ℚ) : List ℚ → ℕ
  | [] => 0
  | x :: xs => (if x = v then 1 else 0) + countQ v xs

/-- Distinct candidate values in first-occurrence order: the insertion
order Counter records and most_common preserves among equal counts. -/
def firstDedupGo : List ℚ → List ℚ → List ℚ
  | [], _ => []
  | x :: xs, seen =>
    if x ∈ seen then firstDedupGo xs seen
    else x :: firstDedupGo xs (x :: seen)

/-- Pick from the given distinct-value list the first value of maximal
count in l, mirroring counts.most_common()[0]: CPython sorts stably by
descending count, so ties keep insertion order. -/
def argmaxCount (l : List ℚ) : List ℚ → Option ℚ
  | [] => none
  | x :: xs =>
    match argmaxCount l xs with
    | none => some x
    | some y => if countQ y l > countQ x l then some y else some x

/-- Majority-vote value of a candidate list. -/
def mostCommon (l : List ℚ) : Option ℚ :=
  argmaxCount l (firstDedupGo l [])

/-- Reduction step of extract_price_from_base64_image
(scraper.py lines 123-151): no candidates yields None; if the maximum
exceeds five times the minimum and the minimum exceeds 20, the minimum
is returned; otherwise the most frequent candidate. -/
def aggregateCandidates : List ℚ → Option ℚ
  | [] => none
  | c :: cs =>
    if cs.foldl max c > 5 * cs.foldl min c ∧ cs.foldl min c > 20 then
      some (cs.foldl min c)
    else mostCommon (c :: cs)

/-- Instrument class. -/
inductive Metal
  | gold
  | silver

/-- One instrument's pair of prices; each side independently optional. -/
structure Quote where
  sell : Option ℚ
  buy : Option ℚ

/-- A scraped snapshot: insertion-ordered key/quote maps for the gold
and silver sections, keys being the digit strings of the grades. -/
structure SnapshotData where
  gold : List (List Char × Quote)
  silver : List (List Char × Quote)

/-- is_price_plausible (scraper.py lines 159-168): None is never
plausible; gold must lie in [2000, 100000], silver in [40, 5000]. -/
def is_price_plausible (m : Metal) (price : Option ℚ) : Bool :=
  match price with
  | none => false
  | some p =>
    match m with
    | Metal.gold => if p < 2000 then false else if p > 100000 then false else true
    | Metal.silver => if p < 40 then false else if p > 5000 then false else true

/-- One field's contribution inside validate_data's inner loop
(scraper.py lines 183-207): accumulator is (valid, total, suspicious);
a plausible value counts valid, a populated implausible value sets the
suspicious flag, an absent value only raises the total. -/
def tally (m : Metal) (acc : ℕ × ℕ × Bool) (p : Option ℚ) : ℕ × ℕ × Bool :=
  if is_price_plausible m p then (acc.1 + 1, acc.2.1 + 1, acc.2.2)
  else if p.isSome then (acc.1, acc.2.1 + 1, true)
  else (acc.1, acc.2.1 + 1, acc.2.2)

/-- Both sides of one quote, sell first as in the source's loop. -/
def tallyQuote (m : Metal) (acc : ℕ × ℕ × Bool) (q : Quote) : ℕ × ℕ × Bool :=
  tally m (tally m acc q.sell) q.buy

/-- Fold of tallyQuote over one metal's section. -/
def tallyList (m : Metal) : List (List Char × Quote) → ℕ × ℕ × Bool → ℕ × ℕ × Bool
  | [], acc => acc
  | e :: es, acc => tallyList m es (tallyQuote m acc e.2)

/-- Field counts and suspicious flag of a snapshot, gold section first
as in validate_data. -/
def tallyData (d : SnapshotData) : ℕ × ℕ × Bool :=
  tallyList Metal.silver d.silver (tallyList Metal.gold d.gold (0, 0, false))

/-- validate_data (scraper.py lines 170-217), returning
(accepted, valid count, total count): any suspicious field rejects
outright; otherwise accept when the total is positive and the coverage
ratio strictly exceeds 0.8. -/
def validate_data (d : SnapshotData) : Bool × ℕ × ℕ :=
  if (tallyData d).2.2 then (false, (tallyData d).1, (tallyData d).2.1)
  else
    (decide ((tallyData d).2.1 > 0) &&
       decide (((tallyData d).1 : ℚ) / ((tallyData d).2.1 : ℚ) > 0.8),
     (tallyData d).1, (tallyData d).2.1)

/-- A populated field whose value fails the plausibility check. -/
def badPrice (m : Metal) (p : Option ℚ) : Bool :=
  p.isSome && !( is_price_plausible m p)

/-- A quote with a populated implausible side. -/
def badQuote (m : Metal) (q : Quote) : Bool :=
  badPrice m q.sell || badPrice m q.buy

/-- A snapshot containing some populated implausible field. -/
def hasSuspicious (d : SnapshotData) : Bool :=
  d.gold.any (fun e => badQuote Metal.gold e.2) ||
    d.silver.any (fun e => badQuote Metal.silver e.2)

/-- External effects feeding one extract_price_from_base64_image call:
the base64/PIL decode step and, per preprocessing strategy, the OCR
call; each may raise, modelled as an Except value. -/
structure OcrInput where
  decodeStep : Except (List Char) Unit
  ocrTexts : List (Except (List Char) (List Char))

/-- The per-strategy loop of extract_price_from_base64_image
(scraper.py lines 112-121): a raised OCR error propagates; otherwise
each recognized text is cleaned and non-None results are collected in
strategy order. -/
def collectCandidates : List (Except (List Char) (List Char)) → Except (List Char) (List ℚ)
  | [] => Except.ok []
  | Except.error e :: _ => Except.error e
  | Except.ok t :: rest =>
    match collectCandidates rest with
    | Except.error e => Except.error e
    | Except.ok cs =>
      Except.ok (match cleanup_text t with
        | some v => v :: cs
        | none => cs)

/-- Body of extract_price_from_base64_image's try block
(scraper.py lines 93-153): decode, run all strategies, reduce. -/
def extractBody (inp : OcrInput) : Except (List Char) (Option ℚ) :=
  match inp.decodeStep with
  | Except.error e => Except.error e
  | Except.ok _ =>
    match collectCandidates inp.ocrTexts with
    | Except.error e => Except.error e
    | Except.ok cs => Except.ok (aggregateCandidates cs)

/-- extract_price_from_base64_image as seen by its caller, the except
handler (lines 155-157) included: any raised error becomes None. -/
def extract_price_from_base64_image (inp : OcrInput) : Option ℚ :=
  match extractBody inp with
  | Except.error _ => none
  | Except.ok v => v

/-- The whole function in the exception monad: body wrapped by the
try/except that converts every caught error into a returned None. -/
def extractGuarded (inp : OcrInput) : Except (List Char) (Option ℚ) :=
  match extractBody inp with
  | Except.error _ => Except.ok none
  | Except.ok v => Except.ok v

/-- Association-list lookup over quote maps, mirroring Python dict key
lookup on the insertion-ordered dicts the scrapers build. -/
def lookupK : List (List Char × Quote) → List Char → Option Quote
  | [], _ => none
  | (k, v) :: rest, key => if k = key then some v else lookupK rest key

/-- Python dict assignment d[k] = v: overwrite in place when the key
exists, append otherwise. -/
def dictSet (l : List (List Char × Quote)) (k : List Char) (v : Quote) : List (List Char × Quote) :=
  if (lookupK l k).isSome then
    l.map (fun p => if p.1 = k then (k, v) else p)
  else l ++ [(k, v)]

/-- Required gold grade keys of the output schema
(scraper.py lines 321-324). -/
def requiredGold : List (List Char) :=
  [['2', '4'], ['2', '1'], ['1', '8']]

/-- Required silver grade keys of the output schema. -/
def requiredSilver : List (List Char) :=
  [['9', '9', '9'], ['9', '2', '5'], ['8', '0', '0']]

/-- Gold karat strings scrape_isagha stores (scraper.py line 314). -/
def goldAllowed : List (List Char) :=
  [['2', '4'], ['2', '2'], ['2', '1'], ['1', '8'], ['1', '4'], ['1', '2'], ['9']]

/-- Silver purity strings scrape_isagha stores (scraper.py line 317). -/
def silverAllowed : List (List Char) :=
  [['9', '9', '9'], ['9', '2', '5'], ['8', '0', '0']]

/-- One gauge card as located by the out-of-scope DOM collaborator:
metal section it sits in, raw title text, and the quote its value cells
yielded through OCR or text parsing. -/
structure Card where
  metal : Metal
  title : List Char
  quote : Quote

/-- Fill step of scraper.py lines 326-329: every required key missing
from the map gets a fully absent quote appended. -/
def fillRequired (l : List (List Char × Quote)) (keys : List (List Char)) : List (List Char × Quote) :=
  keys.foldl (fun acc k => if (lookupK acc k).isSome then acc else acc ++ [(k, Quote.mk none none)]) l

/-- Card-storing step of scrape_isagha (scraper.py lines 295-318):
karat is the digit subsequence of the title; empty karat or a karat
outside the allowed list for the card's metal is skipped. -/
def storeCard (d : SnapshotData) (c : Card) : SnapshotData :=
  if (c.title.filter Char.isDigit).isEmpty then d
  else
    match c.metal with
    | Metal.gold =>
      if c.title.filter Char.isDigit ∈ goldAllowed then
        SnapshotData.mk (dictSet d.gold (c.title.filter Char.isDigit) c.quote) d.silver
      else d
    | Metal.silver =>
      if c.title.filter Char.isDigit ∈ silverAllowed then
        SnapshotData.mk d.gold (dictSet d.silver (c.title.filter Char.isDigit) c.quote)
      else d

/-- scrape_isagha (scraper.py lines 266-338) over the fetch outcome:
None models a raised fetch/parse error caught at line 336; otherwise
the located cards are stored and the required keys are filled. -/
def scrape_isagha (fetch : Option (List Card)) : Option SnapshotData :=
  match fetch with
  | none => none
  | some cards =>
    some
      (SnapshotData.mk
        (fillRequired (cards.foldl storeCard (SnapshotData.mk [] [])).gold requiredGold)
        (fillRequired (cards.foldl storeCard (SnapshotData.mk [] [])).silver requiredSilver))

/-- Whether pat occurs at the head of l, for Python's substring test. -/
def headMatches : List Char → List Char → Bool
  | [], _ => true
  | _ :: _, [] => false
  | a :: as, b :: bs => a = b && headMatches as bs

/-- Python's `pat in hay` substring containment. -/
def containsSeq (pat : List Char) : List Char → Bool
  | [] => headMatches pat []
  | c :: rest => headMatches pat (c :: rest) || containsSeq pat rest

/-- Karat detection of parse_table_row (scraper.py lines 356-363): the
first of 24, 22, 21, 18, 999, 925, 800 whose digits occur in the name
cell. -/
def detectKarat (name : List Char) : Option (List Char) :=
  if containsSeq ['2', '4'] name then some ['2', '4']
  else if containsSeq ['2', '2'] name then some ['2', '2']
  else if containsSeq ['2', '1'] name then some ['2', '1']
  else if containsSeq ['1', '8'] name then some ['1', '8']
  else if containsSeq ['9', '9', '9'] name then some ['9', '9', '9']
  else if containsSeq ['9', '2', '5'] name then some ['9', '2', '5']
  else if containsSeq ['8', '0', '0'] name then some ['8', '0', '0']
  else none

/-- Row-accumulating step of scrape_safehaven (scraper.py lines 350-381):
rows with fewer than three cells or no detected karat are skipped;
otherwise the two price cells are cleaned and the item goes to the gold
map when the karat value is below 100, else to the silver map. -/
def storeRow (acc : List (List Char × Quote) × List (List Char × Quote)) (row : List (List Char)) :
    List (List Char × Quote) × List (List Char × Quote) :=
  if row.length < 3 then acc
  else
    match detectKarat (row.getD 0 []) with
    | none => acc
    | some karat =>
      if digitsToNat karat < 100 then
        (dictSet acc.1 karat (Quote.mk (cleanup_text (row.getD 1 [])) (cleanup_text (row.getD 2 []))), acc.2)
      else
        (acc.1, dictSet acc.2 karat (Quote.mk (cleanup_text (row.getD 1 [])) (cleanup_text (row.getD 2 []))))

/-- Quote for a key with a fully absent default, mirroring
dict.get(k, default) at scraper.py lines 385-392. -/
def getQ (l : List (List Char × Quote)) (k : List Char) : Quote :=
  (lookupK l k).getD (Quote.mk none none)

/-- scrape_safehaven (scraper.py lines 341-399) over the fetch outcome:
None models a raised fetch/parse error caught at line 397; otherwise
the table rows are accumulated and the fixed six-key schema is built. -/
def scrape_safehaven (fetch : Option (List (List (List Char)))) : Option SnapshotData :=
  match fetch with
  | none => none
  | some rows =>
    some
      (SnapshotData.mk
        [(['2', '4'], getQ (rows.foldl storeRow ([], [])).1 ['2', '4']),
         (['2', '1'], getQ (rows.foldl storeRow ([], [])).1 ['2', '1']),
         (['1', '8'], getQ (rows.foldl storeRow ([], [])).1 ['1', '8'])]
        [(['9', '9', '9'], getQ (rows.foldl storeRow ([], [])).2 ['9', '9', '9']),
         (['9', '2', '5'], getQ (rows.foldl storeRow ([], [])).2 ['9', '2', '5']),
         (['8', '0', '0'], getQ (rows.foldl storeRow ([], [])).2 ['8', '0', '0'])])

/-- Whether primary attempt number i yields an accepted snapshot: the
scrape must succeed and validate_data must accept (scraper.py
lines 409-416). -/
def accP (p : ℕ → Option SnapshotData) (i : ℕ) : Bool :=
  match p i with
  | some d => (validate_data d).1
  | none => false

/-- The bounded retry loop of main (scraper.py lines 406-423): given
remaining attempts and the next attempt number, returns the attempt
numbers actually run and the accepted snapshot, if any. -/
def primAttempts (p : ℕ → Option SnapshotData) : ℕ → ℕ → List ℕ × Option SnapshotData
  | 0, _ => ([], none)
  | n + 1, i =>
    if accP p i then ([i], p i)
    else ((primAttempts p n (i + 1)).1.cons i, (primAttempts p n (i + 1)).2)

/-- Observable outcome of one main run: which primary attempts ran,
whether the backup source was called, the snapshot written to
prices.json (if any), and the process exit code. -/
structure MainResult where
  primaryAttempts : List ℕ
  backupAttempted : Bool
  written : Option SnapshotData
  exitCode : ℕ

/-- main (scraper.py lines 402-445) over the attempt outcomes: up to 3
primary attempts numbered from 1; on failure of all, one backup
attempt; an accepted snapshot is written and the process exits 0,
otherwise nothing is written and the process exits 1. -/
def mainRun (p : ℕ → Option SnapshotData) (b : Option SnapshotData) : MainResult :=
  match (primAttempts p 3 1).2 with
  | some d => MainResult.mk (primAttempts p 3 1).1 false (some d) 0
  | none =>
    match b with
    | some d =>
      if (validate_data d).1 then MainResult.mk (primAttempts p 3 1).1 true (some d) 0
      else MainResult.mk (primAttempts p 3 1).1 true none 1
    | none => MainResult.mk (primAttempts p 3 1).1 true none 1

/-! ### Lemmas about the snapshot validator -/

/-- One tally step sets the suspicious flag exactly when the field is
populated and implausible. -/
lemma tally_susp (m : Metal) (acc : ℕ × ℕ × Bool) (p : Option ℚ) :
    (tally m acc p).2.2 = (acc.2.2 || badPrice m p) := by
  rcases p with _ | v
  · simp [tally, badPrice, is_price_plausible]
  · by_cases h : is_price_plausible m (some v) = true
    · simp [tally, h, badPrice]
    · rw [Bool.not_eq_true] at h
      simp [tally, h, badPrice]

/-- Tallying a quote ors the suspicious flags of its two sides onto the
accumulator. -/
lemma tallyQuote_susp (m : Metal) (acc : ℕ × ℕ × Bool) (q : Quote) :
    (tallyQuote m acc q).2.2 = (acc.2.2 || badQuote m q) := by
  simp [tallyQuote, tally_susp, badQuote, Bool.or_assoc]

/-- Tallying a section ors in whether any of its quotes is bad. -/
lemma tallyList_susp (m : Metal) (l : List (List Char × Quote)) :
    ∀ acc : ℕ × ℕ × Bool,
      (tallyList m l acc).2.2 = (acc.2.2 || l.any fun e => badQuote m e.2) := by
  induction l with
  | nil => intro acc; simp [tallyList]
  | cons e es ih => intro acc; simp [tallyList, ih, tallyQuote_susp, Bool.or_assoc]

/-- The suspicious flag computed by validate_data is exactly the
presence of a populated implausible field. -/
lemma tallyData_susp (d : SnapshotData) : (tallyData d).2.2 = hasSuspicious d := by
  simp [tallyData, tallyList_susp, hasSuspicious]

/-- Acceptance of a suspicion-free snapshot is exactly the coverage
condition. -/
lemma validateAcceptIff (d : SnapshotData) (h : hasSuspicious d = false) :
    (validate_data d).1 = true ↔
      (validate_data d).2.2 > 0 ∧
        ((validate_data d).2.1 : ℚ) / ((validate_data d).2.2 : ℚ) > 0.8 := by
  have hs : (tallyData d).2.2 = false := by rw [tallyData_susp]; exact h
  simp [validate_data, hs, Bool.and_eq_true, decide_eq_true_eq]

/-- C1: every snapshot containing a populated price field that fails
the plausibility range check for its instrument class is rejected by
validate_data, whatever the rest of the snapshot looks like. -/
theorem validate_rejects_suspicious (d : SnapshotData) (h : hasSuspicious d = true) :
    (validate_data d).1 = false := by
  have hs : (tallyData d).2.2 = true := by rw [tallyData_susp]; exact h
  simp [validate_data, hs]

/-- Snapshot whose only flaw is one gold sell price of 745, below the
2000 floor; every other field is individually plausible. -/
def snapOneBad : SnapshotData :=
  SnapshotData.mk
    [(['2', '4'], Quote.mk (some 745) (some 3000)),
     (['2', '1'], Quote.mk (some 2600) (some 2600)),
     (['1', '8'], Quote.mk (some 2200) (some 2200))]
    [(['9', '9', '9'], Quote.mk (some 60) (some 60)),
     (['9', '2', '5'], Quote.mk (some 55) (some 55)),
     (['8', '0', '0'], Quote.mk (some 45) (some 45))]

/-- Witness for C1: the snapshot with the single implausible gold price
745 (floor 2000) is rejected although its other eleven fields are
valid. -/
theorem validate_rejects_suspicious_witness :
    hasSuspicious snapOneBad = true ∧ (validate_data snapOneBad).1 = false :=
  ⟨by decide, validate_rejects_suspicious snapOneBad (by decide)⟩

/-- C5: a snapshot without populated implausible fields is accepted by
validate_data exactly when its total field count is positive and the
ratio of valid to total fields strictly exceeds 0.8. -/
theorem validate_coverage_iff (d : SnapshotData) (h : hasSuspicious d = false) :
    (validate_data d).1 = true ↔
      (validate_data d).2.2 > 0 ∧
        ((validate_data d).2.1 : ℚ) / ((validate_data d).2.2 : ℚ) > 0.8 :=
  validateAcceptIff d h

/-- Snapshot with 10 of 12 fields populated and plausible and two
absent sides. -/
def snapTenOfTwelve : SnapshotData :=
  SnapshotData.mk
    [(['2', '4'], Quote.mk (some 3000) (some 3000)),
     (['2', '1'], Quote.mk (some 2600) (some 2600)),
     (['1', '8'], Quote.mk (some 2200) (some 2200))]
    [(['9', '9', '9'], Quote.mk (some 60) (some 60)),
     (['9', '2', '5'], Quote.mk (some 55) none),
     (['8', '0', '0'], Quote.mk (some 45) none)]

/-- Witness for C5: 10 plausible of 12 fields, coverage 5/6 > 0.8, so
the snapshot is accepted. -/
theorem validate_coverage_iff_witness :
    hasSuspicious snapTenOfTwelve = false ∧ (validate_data snapTenOfTwelve).1 = true := by
  refine ⟨by decide, (validate_coverage_iff snapTenOfTwelve (by decide)).mpr ?_⟩
  have e1 : (validate_data snapTenOfTwelve).2.1 = 10 := rfl
  have e2 : (validate_data snapTenOfTwelve).2.2 = 12 := rfl
  rw [e1, e2]
  norm_num

/-! ### Lemmas and claims about the numeric parser -/

/-- C2: the recognized text with one separator and a three-digit
trailing group parses as a thousands grouping, while a two-digit
trailing group parses as a decimal: cleanup_text yields 5745 from the
characters of 5.745 and 57.45 from the characters of 57.45. -/
theorem cleanup_text_separator_cases :
    cleanup_text ['5', '.', '7', '4', '5'] = some 5745 ∧
      cleanup_text ['5', '7', '.', '4', '5'] = some (57.45 : ℚ) := by
  constructor
  · decide
  · have h : cleanup_text ['5', '7', '.', '4', '5'] =
        some (((57 : ℕ) : ℚ) + ((45 : ℕ) : ℚ) / (10 : ℚ) ^ (2 : ℕ)) := rfl
    rw [h]
    norm_num

/-- Counterexample for C3: on the characters of 1.2.345 the trailing
group has exactly three digits, so cleanup_text removes every
separator and yields 12345, not 12.345 as claimed. -/
theorem cleanup_text_multi_sep_counterexample :
    cleanup_text ['1', '.', '2', '.', '3', '4', '5'] = some 12345 ∧
      (12345 : ℚ) ≠ (12.345 : ℚ) := by
  constructor
  · decide
  · norm_num

/-- C3 as amended: on cleaned text with more than one separator, if the
trailing group has exactly three digits every separator is removed
(thousands grouping); otherwise only the last separator is kept as the
decimal point and the earlier groups are concatenated. -/
theorem cleanup_text_multi_sep_amended (text : List Char)
    (h : dotCount ((text.map subst).filter keepChar) > 1) :
    ((lastPart (splitDots ((text.map subst).filter keepChar))).length = 3 →
        cleanup_text text =
          parseFloat (((text.map subst).filter keepChar).filter (fun c => decide (c ≠ '.')))) ∧
      ((lastPart (splitDots ((text.map subst).filter keepChar))).length ≠ 3 →
        cleanup_text text =
          parseFloat
            (((splitDots ((text.map subst).filter keepChar)).dropLast).flatten ++
              ('.' :: lastPart (splitDots ((text.map subst).filter keepChar))))) := by
  have hne : text.isEmpty = false := by
    cases text with
    | nil => simp [dotCount] at h
    | cons a as => rfl
  have h0 : dotCount ((text.map subst).filter keepChar) > 0 := by omega
  constructor
  · intro h3
    simp [cleanup_text, hne, applyDotRule, h0, h3]
  · intro h3
    simp [cleanup_text, hne, applyDotRule, h0, h3, h]

/-- Witness for the amended C3: 1.2.34 has a two-digit trailing group,
so the last separator is kept as decimal and the result is 12.34. -/
theorem cleanup_text_multi_sep_amended_witness :
    cleanup_text ['1', '.', '2', '.', '3', '4'] = some (12.34 : ℚ) := by
  have h :=
    (cleanup_text_multi_sep_amended ['1', '.', '2', '.', '3', '4'] (by decide)).2 (by decide)
  rw [h]
  show some (((12 : ℕ) : ℚ) + ((34 : ℕ) : ℚ) / (10 : ℚ) ^ (2 : ℕ)) = some (12.34 : ℚ)
  norm_num

/-! ### Lemmas and claims about the candidate aggregator -/

/-- A left min-fold is bounded by its initial value. -/
lemma foldl_min_le_init (l : List ℚ) (c : ℚ) : l.foldl min c ≤ c := by
  induction l generalizing c with
  | nil => exact le_refl c
  | cons a as ih =>
    calc as.foldl min (min c a) ≤ min c a := ih (min c a)
    _ ≤ c := min_le_left c a

/-- A left min-fold is bounded by every list element. -/
lemma foldl_min_le_mem (l : List ℚ) (c x : ℚ) (hx : x ∈ l) : l.foldl min c ≤ x := by
  induction l generalizing c with
  | nil => cases hx
  | cons a as ih =>
    rcases List.mem_cons.mp hx with h | h
    · subst h
      calc as.foldl min (min c x) ≤ min c x := foldl_min_le_init as (min c x)
      _ ≤ x := min_le_right c x
    · exact ih (min c a) h

/-- A left min-fold is its initial value or a list element. -/
lemma foldl_min_mem (l : List ℚ) (c : ℚ) : l.foldl min c = c ∨ l.foldl min c ∈ l := by
  induction l generalizing c with
  | nil => exact Or.inl rfl
  | cons a as ih =>
    rcases ih (min c a) with h | h
    · rcases min_choice c a with hc | hc
      · exact Or.inl (by rw [List.foldl_cons, h, hc])
      · exact Or.inr (by rw [List.foldl_cons, h, hc]; exact List.mem_cons_self a as)
    · exact Or.inr (List.mem_cons_of_mem a h)

/-- A left max-fold dominates its initial value. -/
lemma le_foldl_max_init (l : List ℚ) (c : ℚ) : c ≤ l.foldl max c := by
  induction l generalizing c with
  | nil => exact le_refl c
  | cons a as ih =>
    calc c ≤ max c a := le_max_left c a
    _ ≤ as.foldl max (max c a) := ih (max c a)

/-- A left max-fold dominates every list element. -/
lemma le_foldl_max_mem (l : List ℚ) (c x : ℚ) (hx : x ∈ l) : x ≤ l.foldl max c := by
  induction l generalizing c with
  | nil => cases hx
  | cons a as ih =>
    rcases List.mem_cons.mp hx with h | h
    · subst h
      calc x ≤ max c x := le_max_right c x
      _ ≤ as.foldl max (max c x) := le_foldl_max_init as (max c x)
    · exact ih (max c a) h

/-- A left max-fold is its initial value or a list element. -/
lemma foldl_max_mem (l : List ℚ) (c : ℚ) : l.foldl max c = c ∨ l.foldl max c ∈ l := by
  induction l generalizing c with
  | nil => exact Or.inl rfl
  | cons a as ih =>
    rcases ih (max c a) with h | h
    · rcases max_choice c a with hc | hc
      · exact Or.inl (by rw [List.foldl_cons, h, hc])
      · exact Or.inr (by rw [List.foldl_cons, h, hc]; exact List.mem_cons_self a as)
    · exact Or.inr (List.mem_cons_of_mem a h)

/-- C4: on a non-empty candidate list whose maximum exceeds five times
its minimum while the minimum exceeds the floor 20, the aggregation
step returns the minimum candidate (and the folds in the hypotheses are
indeed the least and greatest candidates). -/
theorem aggregator_prefers_min (c : ℚ) (cs : List ℚ)
    (h1 : cs.foldl max c > 5 * cs.foldl min c) (h2 : cs.foldl min c > 20) :
    aggregateCandidates (c :: cs) = some (cs.foldl min c) ∧
      cs.foldl min c ∈ c :: cs ∧
      (∀ x ∈ c :: cs, cs.foldl min c ≤ x) ∧
      cs.foldl max c ∈ c :: cs ∧
      (∀ x ∈ c :: cs, x ≤ cs.foldl max c) := by
  refine ⟨?_, ?_, ?_, ?_, ?_⟩
  · simp only [aggregateCandidates]
    rw [if_pos ⟨h1, h2⟩]
  · rcases foldl_min_mem cs c with h | h
    · rw [h]; exact List.mem_cons_self c cs
    · exact List.mem_cons_of_mem c h
  · intro x hx
    rcases List.mem_cons.mp hx with h | h
    · rw [h]; exact foldl_min_le_init cs c
    · exact foldl_min_le_mem cs c x h
  · rcases foldl_max_mem cs c with h | h
    · rw [h]; exact List.mem_cons_self c cs
    · exact List.mem_cons_of_mem c h
  · intro x hx
    rcases List.mem_cons.mp hx with h | h
    · rw [h]; exact le_foldl_max_init cs c
    · exact le_foldl_max_mem cs c x h

/-- Witness for C4: on candidates 5765, 57655, 5765 the ratio exceeds
5 and the minimum exceeds 20, so the aggregation returns 5765. -/
theorem aggregator_prefers_min_witness :
    aggregateCandidates [5765, 57655, 5765] = some 5765 := by
  have e1 : ([57655, 5765] : List ℚ).foldl max 5765 = max (max 5765 57655) 5765 := rfl
  have e2 : ([57655, 5765] : List ℚ).foldl min 5765 = min (min 5765 57655) 5765 := rfl
  have h1 : ([57655, 5765] : List ℚ).foldl max 5765 > 5 * ([57655, 5765] : List ℚ).foldl min 5765 := by
    rw [e1, e2]; norm_num [min_def, max_def]
  have h2 : ([57655, 5765] : List ℚ).foldl min 5765 > 20 := by
    rw [e2]; norm_num [min_def]
  have h := (aggregator_prefers_min 5765 [57655, 5765] h1 h2).1
  rw [h, e2]
  norm_num [min_def]

/-- C10: the minimum-preference test is decided before the majority
vote: whenever the ratio condition holds the minimum is returned, and
only when it fails does the aggregation return the most frequent
candidate. -/
theorem aggregator_min_before_majority (c : ℚ) (cs : List ℚ) :
    (cs.foldl max c > 5 * cs.foldl min c ∧ cs.foldl min c > 20 →
        aggregateCandidates (c :: cs) = some (cs.foldl min c)) ∧
      (¬(cs.foldl max c > 5 * cs.foldl min c ∧ cs.foldl min c > 20) →
        aggregateCandidates (c :: cs) = mostCommon (c :: cs)) := by
  constructor
  · intro h
    simp only [aggregateCandidates]
    rw [if_pos h]
  · intro h
    simp only [aggregateCandidates]
    rw [if_neg h]

/-- Witness for C10: on candidates 57655, 57655, 5765 the majority
value is 57655, yet the ratio condition holds and the aggregation
returns the minimum 5765 instead. -/
theorem aggregator_min_before_majority_witness :
    aggregateCandidates [57655, 57655, 5765] = some 5765 ∧
      mostCommon [57655, 57655, 5765] = some 57655 ∧ (5765 : ℚ) ≠ 57655 := by
  refine ⟨?_, by decide, by norm_num⟩
  have e1 : ([57655, 5765] : List ℚ).foldl max 57655 = max (max 57655 57655) 5765 := rfl
  have e2 : ([57655, 5765] : List ℚ).foldl min 57655 = min (min 57655 57655) 5765 := rfl
  have h1 : ([57655, 5765] : List ℚ).foldl max 57655 >
      5 * ([57655, 5765] : List ℚ).foldl min 57655 := by
    rw [e1, e2]; norm_num [min_def, max_def]
  have h2 : ([57655, 5765] : List ℚ).foldl min 57655 > 20 := by
    rw [e2]; norm_num [min_def]
  have h := (aggregator_min_before_majority 57655 [57655, 5765]).1 ⟨h1, h2⟩
  rw [h, e2]
  norm_num [min_def]

/-! ### Lemmas and claims about the orchestrator -/

/-- An accepted primary attempt means the scrape succeeded with a
snapshot that validates. -/
lemma accP_true_some (p : ℕ → Option SnapshotData) (i : ℕ) (h : accP p i = true) :
    ∃ d, p i = some d ∧ (validate_data d).1 = true := by
  unfold accP at h
  cases hp : p i with
  | none => rw [hp] at h; cases h
  | some d => rw [hp] at h; exact ⟨d, rfl, h⟩

/-- C6: when every primary attempt is rejected (or fails) and the
backup is rejected (or fails), main writes no snapshot and exits with
code 1. -/
theorem main_total_failure (p : ℕ → Option SnapshotData) (b : Option SnapshotData)
    (hp : ∀ i, 1 ≤ i → i ≤ 3 → accP p i = false)
    (hb : ∀ d, b = some d → (validate_data d).1 = false) :
    (mainRun p b).written = none ∧ (mainRun p b).exitCode = 1 := by
  have h1 : accP p 1 = false := hp 1 (by norm_num) (by norm_num)
  have h2 : accP p 2 = false := hp 2 (by norm_num) (by norm_num)
  have h3 : accP p 3 = false := hp 3 (by norm_num) (by norm_num)
  have hpa : primAttempts p 3 1 = ([1, 2, 3], none) := by
    simp [primAttempts, h1, h2, h3]
  rcases hbb : b with _ | d
  · simp [mainRun, hpa]
  · have hv := hb d hbb
    simp [mainRun, hpa, hv]

/-- Witness for C6: all primary fetches fail and there is no backup
snapshot, so nothing is written and the exit code is 1. -/
theorem main_total_failure_witness :
    (mainRun (fun _ => none) none).written = none ∧
      (mainRun (fun _ => none) none).exitCode = 1 :=
  main_total_failure (fun _ => none) none (fun _ _ _ => rfl)
    (fun _ h => Option.noConfusion h)

/-- C7: the primary source is attempted at most three times, the first
accepted attempt ends the loop with the backup never attempted, and
the backup is attempted (once) exactly when all three primary attempts
fail. -/
theorem main_orchestration (p : ℕ → Option SnapshotData) (b : Option SnapshotData) :
    (mainRun p b).primaryAttempts.length ≤ 3 ∧
      (accP p 1 = true →
        (mainRun p b).primaryAttempts = [1] ∧ (mainRun p b).backupAttempted = false) ∧
      (accP p 1 = false → accP p 2 = true →
        (mainRun p b).primaryAttempts = [1, 2] ∧ (mainRun p b).backupAttempted = false) ∧
      (accP p 1 = false → accP p 2 = false → accP p 3 = true →
        (mainRun p b).primaryAttempts = [1, 2, 3] ∧ (mainRun p b).backupAttempted = false) ∧
      ((mainRun p b).backupAttempted = true ↔
        accP p 1 = false ∧ accP p 2 = false ∧ accP p 3 = false) := by
  cases h1 : accP p 1 with
  | true =>
    obtain ⟨d, hd, _⟩ := accP_true_some p 1 h1
    have hpa : primAttempts p 3 1 = ([1], some d) := by simp [primAttempts, h1, hd]
    refine ⟨?_, ?_, ?_, ?_, ?_⟩ <;> simp [mainRun, hpa, h1]
  | false =>
    cases h2 : accP p 2 with
    | true =>
      obtain ⟨d, hd, _⟩ := accP_true_some p 2 h2
      have hpa : primAttempts p 3 1 = ([1, 2], some d) := by simp [primAttempts, h1, h2, hd]
      refine ⟨?_, ?_, ?_, ?_, ?_⟩ <;> simp [mainRun, hpa, h1, h2]
    | false =>
      cases h3 : accP p 3 with
      | true =>
        obtain ⟨d, hd, _⟩ := accP_true_some p 3 h3
        have hpa : primAttempts p 3 1 = ([1, 2, 3], some d) := by
          simp [primAttempts, h1, h2, h3, hd]
        refine ⟨?_, ?_, ?_, ?_, ?_⟩ <;> simp [mainRun, hpa, h1, h2, h3]
      | false =>
        have hpa : primAttempts p 3 1 = ([1, 2, 3], none) := by
          simp [primAttempts, h1, h2, h3]
        rcases hbb : b with _ | d
        · refine ⟨?_, ?_, ?_, ?_, ?_⟩ <;> simp [mainRun, hpa, h1, h2, h3]
        · cases hv : (validate_data d).1 <;>
            (refine ⟨?_, ?_, ?_, ?_, ?_⟩ <;> simp [mainRun, hpa, hv, h1, h2, h3])

/-- Primary attempt oracle that fails on the first attempt and accepts
on the second. -/
def pSecond : ℕ → Option SnapshotData :=
  fun i => if i = 2 then some snapTenOfTwelve else none

/-- The 10-of-12 snapshot passes validation. -/
lemma snapTen_accepted : (validate_data snapTenOfTwelve).1 = true := by
  refine (validateAcceptIff snapTenOfTwelve (by decide)).mpr ?_
  have e1 : (validate_data snapTenOfTwelve).2.1 = 10 := rfl
  have e2 : (validate_data snapTenOfTwelve).2.2 = 12 := rfl
  rw [e1, e2]
  norm_num

/-- Witness for C7: first attempt fails, second is accepted, so exactly
attempts 1 and 2 run and the backup is never attempted. -/
theorem main_orchestration_witness :
    (mainRun pSecond none).primaryAttempts = [1, 2] ∧
      (mainRun pSecond none).backupAttempted = false := by
  have h1 : accP pSecond 1 = false := rfl
  have h2 : accP pSecond 2 = true := snapTen_accepted
  exact (main_orchestration pSecond none).2.2.1 h1 h2

/-! ### Claims about the image price extractor -/

/-- C8: the extractor never lets an exception escape: the guarded
function always returns a value, a raised body error surfaces to the
caller as None, and an error-free run with no parseable candidate also
yields None. -/
theorem extract_never_throws (inp : OcrInput) :
    extractGuarded inp = Except.ok (extract_price_from_base64_image inp) ∧
      (∀ e, extractBody inp = Except.error e →
        extract_price_from_base64_image inp = none) ∧
      (inp.decodeStep = Except.ok () → collectCandidates inp.ocrTexts = Except.ok [] →
        extract_price_from_base64_image inp = none) := by
  refine ⟨?_, ?_, ?_⟩
  · cases hb : extractBody inp <;>
      simp [extractGuarded, extract_price_from_base64_image, hb]
  · intro e h
    simp [extract_price_from_base64_image, h]
  · intro hd hc
    simp [extract_price_from_base64_image, extractBody, hd, hc, aggregateCandidates]

/-- Witness for C8: an input whose decode step raises is absorbed: the
caller sees None, never an error. -/
theorem extract_never_throws_witness :
    extract_price_from_base64_image (OcrInput.mk (Except.error ['e']) []) = none ∧
      extractGuarded (OcrInput.mk (Except.error ['e']) []) = Except.ok none := by
  have h := extract_never_throws (OcrInput.mk (Except.error ['e']) [])
  have hn := h.2.1 ['e'] rfl
  exact ⟨hn, by rw [h.1, hn]⟩

/-! ### Lemmas and claims about snapshot structure -/

/-- A key found in the front part of an appended map is still found in
the whole map. -/
lemma lookupK_append_isSome (l1 l2 : List (List Char × Quote)) (k : List Char)
    (h : (lookupK l1 k).isSome = true) : (lookupK (l1 ++ l2) k).isSome = true := by
  induction l1 with
  | nil => simp [lookupK] at h
  | cons e es ih =>
    rcases e with ⟨k0, v0⟩
    rw [List.cons_append]
    by_cases hk : k0 = k
    · simp [lookupK, hk]
    · simp only [lookupK, if_neg hk] at h ⊢
      exact ih h

/-- A key absent from the front part of an appended map is looked up in
the back part. -/
lemma lookupK_append_right (l1 l2 : List (List Char × Quote)) (k : List Char)
    (h : (lookupK l1 k).isSome = false) : lookupK (l1 ++ l2) k = lookupK l2 k := by
  induction l1 with
  | nil => rfl
  | cons e es ih =>
    rcases e with ⟨k0, v0⟩
    rw [List.cons_append]
    by_cases hk : k0 = k
    · simp [lookupK, hk] at h
    · simp only [lookupK, if_neg hk] at h ⊢
      exact ih h

/-- Filling more keys never loses a key already present. -/
lemma fillRequired_preserves (keys : List (List Char)) (l : List (List Char × Quote))
    (k : List Char) (h : (lookupK l k).isSome = true) :
    (lookupK (fillRequired l keys) k).isSome = true := by
  induction keys generalizing l with
  | nil => simpa [fillRequired] using h
  | cons k0 ks ih =>
    have hstep : fillRequired l (k0 :: ks) =
        fillRequired
          (if (lookupK l k0).isSome then l else l ++ [(k0, Quote.mk none none)]) ks := by
      simp [fillRequired]
    rw [hstep]
    by_cases h0 : (lookupK l k0).isSome = true
    · rw [if_pos h0]; exact ih l h
    · rw [Bool.not_eq_true] at h0
      rw [h0]
      simp only [Bool.false_eq_true, if_false]
      exact ih _ (lookupK_append_isSome l _ k h)

/-- Every requested key is present after the fill step. -/
lemma fillRequired_isSome (keys : List (List Char)) (l : List (List Char × Quote))
    (k : List Char) (hk : k ∈ keys) :
    (lookupK (fillRequired l keys) k).isSome = true := by
  induction keys generalizing l with
  | nil => cases hk
  | cons k0 ks ih =>
    have hstep : fillRequired l (k0 :: ks) =
        fillRequired
          (if (lookupK l k0).isSome then l else l ++ [(k0, Quote.mk none none)]) ks := by
      simp [fillRequired]
    rw [hstep]
    rcases List.mem_cons.mp hk with h | h
    · subst h
      by_cases h0 : (lookupK l k).isSome = true
      · rw [if_pos h0]; exact fillRequired_preserves ks l k h0
      · rw [Bool.not_eq_true] at h0
        rw [h0]
        simp only [Bool.false_eq_true, if_false]
        refine fillRequired_preserves ks _ k ?_
        rw [lookupK_append_right l _ k h0]
        simp [lookupK]
    · by_cases h0 : (lookupK l k0).isSome = true
      · rw [if_pos h0]; exact ih l h
      · rw [Bool.not_eq_true] at h0
        rw [h0]
        simp only [Bool.false_eq_true, if_false]
        exact ih _ h

/-- C9: every snapshot either scraper returns contains an entry for
each expected instrument key — gold grades 24, 21, 18 and silver
grades 999, 925, 800 — missing ones having been filled with absent
quotes rather than omitted. -/
theorem scrapers_fill_required_keys :
    (∀ fetch d, scrape_isagha fetch = some d →
        (∀ k ∈ requiredGold, (lookupK d.gold k).isSome = true) ∧
          (∀ k ∈ requiredSilver, (lookupK d.silver k).isSome = true)) ∧
      (∀ fetch d, scrape_safehaven fetch = some d →
        (∀ k ∈ requiredGold, (lookupK d.gold k).isSome = true) ∧
          (∀ k ∈ requiredSilver, (lookupK d.silver k).isSome = true)) := by
  constructor
  · intro fetch d h
    cases fetch with
    | none => cases h
    | some cards =>
      injection h with h
      subst h
      constructor
      · intro k hk
        exact fillRequired_isSome requiredGold _ k hk
      · intro k hk
        exact fillRequired_isSome requiredSilver _ k hk
  · intro fetch d h
    cases fetch with
    | none => cases h
    | some rows =>
      injection h with h
      subst h
      constructor
      · intro k hk
        simp only [requiredGold, List.mem_cons, List.not_mem_nil, or_false] at hk
        rcases hk with h | h | h <;> subst h <;> rfl
      · intro k hk
        simp only [requiredSilver, List.mem_cons, List.not_mem_nil, or_false] at hk
        rcases hk with h | h | h <;> subst h <;> rfl

/-- Witness for C9: scraping with no located cards and no table rows
still yields snapshots containing the required keys with absent
quotes. -/
theorem scrapers_fill_required_keys_witness :
    (∃ d, scrape_isagha (some []) = some d ∧
        (lookupK d.gold ['2', '4']).isSome = true ∧
          (lookupK d.silver ['9', '9', '9']).isSome = true) ∧
      (∃ d, scrape_safehaven (some []) = some d ∧
        (lookupK d.gold ['2', '4']).isSome = true ∧
          (lookupK d.silver ['9', '9', '9']).isSome = true) := by
  constructor
  · refine ⟨_, rfl, ?_, ?_⟩
    · exact (scrapers_fill_required_keys.1 (some []) _ rfl).1 ['2', '4'] (by decide)
    · exact (scrapers_fill_required_keys.1 (some []) _ rfl).2 ['9', '9', '9'] (by decide)
  · refine ⟨_, rfl, ?_, ?_⟩
    · exact (scrapers_fill_required_keys.2 (some []) _ rfl).1 ['2', '4'] (by decide)
    · exact (scrapers_fill_required_keys.2 (some []) _ rfl).2 ['9', '9', '9'] (by decide)
